import Mathlib

/-!
Verification of the `movable-ref` relative-pointer library.

We give a shallow embedding of the core components, translated from the
Rust sources (a 64-bit platform is assumed, so `usize`/`isize` are 64 bits
wide):

* `src/offset/integers.rs` — the `Offset` implementations for the signed
  integer types (`impl_delta_zeroable`) and their `NonZero` refinements
  (`impl_delta_nonzero`).  Addresses are modelled as natural numbers below
  `2 ^ 64`; the Rust cast `ptr as usize as isize` is the two's-complement
  reinterpretation `toSigned`.
* `src/pointer/self_ref.rs` — the `SelfRef` state (offset, possibly
  uninitialised components, `Unset`/`Ready` tag) and its operations, in
  the `cfg(not(feature = "debug-guards"))` configuration.
* `src/metadata/impls.rs` — `PointerRecomposition` for sized types,
  slices and `str`.
* `src/combinators/self_ref_cell.rs` — the owning cell combinator; the
  cell's field layout is a pair of byte offsets `dv` (value field) and
  `dp` (pointer field) from the cell's base address, and memory is
  modelled as containing exactly the cell's own value.
-/

namespace MovableRef

/-- Lower bound of `isize` on a 64-bit platform. -/
def isizeMin : Int := -(2 ^ 63)

/-- Upper bound of `isize` on a 64-bit platform. -/
def isizeMax : Int := 2 ^ 63 - 1

/-- Two's-complement reinterpretation of a 64-bit unsigned value as signed:
the Rust cast `x as isize` for `x : usize`. -/
def toSigned (n : Nat) : Int :=
  if n < 2 ^ 63 then (n : Int) else (n : Int) - 2 ^ 64

/-- Minimum value of the signed integer type of `size` bytes
(`Self::min_value() as isize` in `impl_delta_zeroable`). -/
def tyMinI (size : Nat) : Int := -(2 ^ (8 * size - 1))

/-- Maximum value of the signed integer type of `size` bytes
(`Self::max_value() as isize` in `impl_delta_zeroable`). -/
def tyMaxI (size : Nat) : Int := 2 ^ (8 * size - 1) - 1

/-- The error discriminants of `src/error.rs` (`IntegerOffsetErrorImpl`). -/
inductive IntegerOffsetErrorImpl where
  | Conversion (del : Int)
  | Sub (a b : Nat)
  | InvalidNonZero
deriving DecidableEq, Repr

abbrev OffErr := IntegerOffsetErrorImpl

deriving instance DecidableEq for Except

/-- `isize::checked_sub` on already-reinterpreted signed values. -/
def checkedSubIsize (x y : Int) : Option Int :=
  if x - y < isizeMin ∨ isizeMax < x - y then none else some (x - y)

/-- `Offset::sub` from the `impl_delta_zeroable!` macro
(`src/offset/integers.rs`, lines 11–26), for the signed integer type of
`size` bytes.  `a` and `b` are the raw addresses (`*mut u8 as usize`). -/
def sub_zeroable (size : Nat) (a b : Nat) : Except OffErr Int :=
  match checkedSubIsize (toSigned a) (toSigned b) with
  | none => .error (.Sub a b)
  | some del =>
    if size < 8 ∧ (tyMinI size > del ∨ tyMaxI size < del) then
      .error (.Conversion del)
    else
      .ok del

/-- `Offset::sub` from the `impl_delta_nonzero!` macro
(`src/offset/integers.rs`, lines 50–67), for the `NonZero` type whose base
signed integer type has `size` bytes. -/
def sub_nonzero (size : Nat) (a b : Nat) : Except OffErr Int :=
  match checkedSubIsize (toSigned a) (toSigned b) with
  | none => .error (.Sub a b)
  | some del =>
    if del = 0 then
      .error .InvalidNonZero
    else if size < 8 ∧ (tyMinI size > del ∨ tyMaxI size < del) then
      .error (.Conversion del)
    else
      .ok del

/-- An integer `Offset` type: its base width in bytes and whether it is one
of the `NonZero` refinements. -/
structure OffTy where
  size : Nat
  nonzero : Bool
deriving DecidableEq, Repr

/-- Dispatch of `Offset::sub` over the two macro-generated families. -/
def Offset.sub (ty : OffTy) (a b : Nat) : Except OffErr Int :=
  if ty.nonzero then sub_nonzero ty.size a b else sub_zeroable ty.size a b

/-- The Rust cast of a stored offset value to `isize` (`self as isize`,
resp. `self.get() as isize`): truncation to 64 bits, two's complement. -/
def wrapIsize (o : Int) : Int := (o + 2 ^ 63) % (2 ^ 64) - 2 ^ 63

/-- `Offset::add`: `<*const u8>::offset(a, self as isize)`, i.e. address
arithmetic modulo `2 ^ 64` on the base address `a`. -/
def Offset.add (o : Int) (a : Nat) : Nat :=
  (((a : Int) + wrapIsize o) % (2 ^ 64)).toNat

/- Helper lemmas about the arithmetic model. -/

theorem toSigned_cases (n : Nat) :
    toSigned n = (n : Int) ∨ toSigned n = (n : Int) - 2 ^ 64 := by
  unfold toSigned
  split <;> simp

theorem toSigned_lt (n : Nat) (h : n < 2 ^ 64) :
    isizeMin ≤ toSigned n ∧ toSigned n ≤ isizeMax := by
  unfold toSigned isizeMin isizeMax
  split <;> omega

theorem toSigned_inj (a b : Nat) (ha : a < 2 ^ 64) (hb : b < 2 ^ 64)
    (h : toSigned a = toSigned b) : a = b := by
  unfold toSigned at h
  split at h <;> split at h <;> omega

/-- Characterization of a successful `sub_zeroable`. -/
theorem sub_zeroable_ok (size a b : Nat) (d : Int)
    (h : sub_zeroable size a b = .ok d) :
    d = toSigned a - toSigned b ∧ isizeMin ≤ d ∧ d ≤ isizeMax := by
  unfold sub_zeroable checkedSubIsize at h
  by_cases hc : toSigned a - toSigned b < isizeMin ∨
      isizeMax < toSigned a - toSigned b
  · simp [hc] at h
  · simp only [if_pos hc, if_neg hc] at h
    split at h
    · exact absurd h (by simp)
    · cases h
      constructor
      · rfl
      · omega

/-- Characterization of a successful `sub_nonzero`. -/
theorem sub_nonzero_ok (size a b : Nat) (d : Int)
    (h : sub_nonzero size a b = .ok d) :
    d = toSigned a - toSigned b ∧ isizeMin ≤ d ∧ d ≤ isizeMax ∧ d ≠ 0 := by
  unfold sub_nonzero checkedSubIsize at h
  by_cases hc : toSigned a - toSigned b < isizeMin ∨
      isizeMax < toSigned a - toSigned b
  · simp [hc] at h
  · simp only [if_pos hc, if_neg hc] at h
    by_cases h0 : toSigned a - toSigned b = 0
    · simp [h0] at h
    · simp only [if_neg h0] at h
      split at h
      · exact absurd h (by simp)
      · cases h
        exact ⟨rfl, by omega, by omega, h0⟩

theorem wrapIsize_eq (o : Int) (h1 : isizeMin ≤ o) (h2 : o ≤ isizeMax) :
    wrapIsize o = o := by
  unfold wrapIsize
  simp only [isizeMin] at h1
  simp only [isizeMax] at h2
  omega

/-- C1.  For every pair of addresses `a`, `b` such that `Offset::sub a b`
succeeds — for any width and for both the zeroable and the `NonZero`
families — applying the resulting offset to `b` returns exactly `a`:
`add (sub a b) b = a`. -/
theorem add_sub_roundtrip (ty : OffTy) (a b : Nat)
    (ha : a < 2 ^ 64) (hb : b < 2 ^ 64) (d : Int)
    (h : Offset.sub ty a b = .ok d) : Offset.add d b = a := by
  have hd : d = toSigned a - toSigned b ∧ isizeMin ≤ d ∧ d ≤ isizeMax := by
    unfold Offset.sub at h
    split at h
    · have := sub_nonzero_ok ty.size a b d h
      exact ⟨this.1, this.2.1, this.2.2.1⟩
    · exact sub_zeroable_ok ty.size a b d h
  obtain ⟨hdef, hlo, hhi⟩ := hd
  unfold Offset.add
  rw [wrapIsize_eq d hlo hhi]
  simp only [isizeMin] at hlo
  simp only [isizeMax] at hhi
  subst hdef
  unfold toSigned at hlo hhi ⊢
  split_ifs at * <;> omega

/-- Witness for C1 at a concrete input: `NonZeroI16`, addresses 300 and
100. -/
theorem add_sub_roundtrip_witness :
    Offset.sub ⟨2, true⟩ 300 100 = .ok 200 ∧ Offset.add 200 100 = 300 := by
  constructor
  · decide
  · exact add_sub_roundtrip ⟨2, true⟩ 300 100 (by norm_num) (by norm_num)
      200 (by decide)

theorem sub_nonzero_self (size c : Nat) :
    sub_nonzero size c c = .error .InvalidNonZero := by
  unfold sub_nonzero checkedSubIsize
  have h : ¬((0 : Int) < isizeMin ∨ isizeMax < (0 : Int)) := by
    simp only [isizeMin, isizeMax]
    norm_num
  simp [h]

/-- C7.  For the non-zero-enforcing offset types, `Offset::sub a b` fails
with `InvalidNonZero` exactly when the computed distance is zero, i.e.
(for in-range addresses) exactly when `a = b`; the zero check fires for
every width, before and independently of the width range check. -/
theorem sub_nonzero_invalid_iff (size a b : Nat)
    (ha : a < 2 ^ 64) (hb : b < 2 ^ 64) :
    sub_nonzero size a a = .error .InvalidNonZero ∧
      (sub_nonzero size a b = .error .InvalidNonZero ↔ a = b) := by
  refine ⟨sub_nonzero_self size a, ?_, fun h => h ▸ sub_nonzero_self size b⟩
  intro h
  unfold sub_nonzero checkedSubIsize at h
  by_cases hc : toSigned a - toSigned b < isizeMin ∨
      isizeMax < toSigned a - toSigned b
  · simp [hc] at h
  · simp only [if_pos hc, if_neg hc] at h
    by_cases h0 : toSigned a - toSigned b = 0
    · exact toSigned_inj a b ha hb (by omega)
    · simp only [if_neg h0] at h
      split at h <;> simp at h

/-- Witness for C7 at a concrete input: `NonZeroI8`, equal addresses 500,
and distinct addresses 500, 400. -/
theorem sub_nonzero_invalid_iff_witness :
    sub_nonzero 1 500 500 = .error .InvalidNonZero ∧
      (sub_nonzero 1 500 400 = .error .InvalidNonZero ↔ (500 : Nat) = 400) := by
  exact sub_nonzero_invalid_iff 1 500 400 (by norm_num) (by norm_num)

/-- C4 (counterexample).  The claim states that on success the returned
offset equals the true distance `a - b`, and that the `Sub` error occurs
exactly when `a - b` overflows `isize`.  At `a = 2 ^ 63`, `b = 0` the true
distance `2 ^ 63` overflows `isize`, yet `sub` succeeds and returns
`-(2 ^ 63)`, which differs from the true distance: the subtraction is
performed on the sign-reinterpreted addresses, not on the raw distance. -/
theorem sub_zeroable_truncates_at_sign_boundary :
    sub_zeroable 8 (2 ^ 63) 0 = .ok (-(2 ^ 63)) ∧
      ((2 ^ 63 : Int) - (0 : Int) ≠ -(2 ^ 63)) := by
  constructor
  · decide
  · decide

/-- C4 (amended).  `Offset::sub` for the zeroable family: the `Sub` error
occurs exactly when the difference of the sign-reinterpreted addresses
overflows `isize`; the `Conversion` error occurs exactly when that
difference fits `isize` but, the type being narrower than `isize`, lies
outside the type's min/max range; on success the returned offset equals
the sign-reinterpreted difference, which is congruent to the true distance
`a - b` modulo `2 ^ 64` — never an unrelated truncated value. -/
theorem sub_zeroable_spec (size a b : Nat)
    (ha : a < 2 ^ 64) (hb : b < 2 ^ 64) :
    (sub_zeroable size a b = .error (.Sub a b) ↔
      toSigned a - toSigned b < isizeMin ∨
        isizeMax < toSigned a - toSigned b) ∧
    (∀ del : Int, sub_zeroable size a b = .error (.Conversion del) ↔
      del = toSigned a - toSigned b ∧ isizeMin ≤ del ∧ del ≤ isizeMax ∧
        size < 8 ∧ (tyMinI size > del ∨ tyMaxI size < del)) ∧
    (∀ o : Int, sub_zeroable size a b = .ok o →
      o = toSigned a - toSigned b ∧
        ((a : Int) - (b : Int) - o) % (2 ^ 64) = 0) := by
  refine ⟨?_, ?_, ?_⟩
  · unfold sub_zeroable checkedSubIsize
    by_cases hc : toSigned a - toSigned b < isizeMin ∨
        isizeMax < toSigned a - toSigned b
    · simp [hc]
    · simp only [if_pos hc, if_neg hc]
      constructor
      · intro h
        split at h <;> simp at h
      · intro h
        exact absurd h hc
  · intro del
    unfold sub_zeroable checkedSubIsize
    by_cases hc : toSigned a - toSigned b < isizeMin ∨
        isizeMax < toSigned a - toSigned b
    · simp only [if_pos hc]
      constructor
      · intro h
        simp at h
      · intro h
        obtain ⟨hdef, h1, h2, _, _⟩ := h
        subst hdef
        exfalso
        simp only [isizeMin] at hc h1
        simp only [isizeMax] at hc h2
        omega
    · simp only [if_pos hc, if_neg hc]
      by_cases hr : size < 8 ∧ (tyMinI size > toSigned a - toSigned b ∨
          tyMaxI size < toSigned a - toSigned b)
      · simp only [if_pos hr]
        constructor
        · intro h
          cases h
          exact ⟨rfl, by omega, by omega, hr.1, hr.2⟩
        · intro h
          rw [h.1]
      · simp only [if_neg hr]
        constructor
        · intro h
          simp at h
        · intro h
          obtain ⟨hdef, h1, h2, h3, h4⟩ := h
          subst hdef
          exact absurd ⟨h3, h4⟩ hr
  · intro o h
    have hok := sub_zeroable_ok size a b o h
    refine ⟨hok.1, ?_⟩
    obtain ⟨hdef, _, _⟩ := hok
    subst hdef
    unfold toSigned
    split_ifs <;> omega

/-- Witness for C4's amended theorem at a concrete input: `i8`, addresses
1000 and 0; the distance 1000 exceeds `i8::MAX` so `Conversion` is
returned. -/
theorem sub_zeroable_spec_witness :
    sub_zeroable 1 1000 0 = .error (.Conversion 1000) ∧
      toSigned 1000 - toSigned 0 = 1000 := by
  have h := (sub_zeroable_spec 1 1000 0 (by norm_num) (by norm_num)).2.1 1000
  constructor
  · rw [h]
    refine ⟨by decide, by decide, by decide, by decide, ?_⟩
    right
    decide
  · decide

/- The `SelfRef` pointer state (`src/pointer/self_ref.rs`), in the
`cfg(not(feature = "debug-guards"))` configuration.  The `RefState` payload
is the optional recorded absolute target (`GuardPayload<T>`), an address in
the model. -/

/-- `RefState<T>` from `src/pointer/self_ref.rs`. -/
inductive RefState where
  | Unset
  | Ready (payload : Option Nat)
deriving DecidableEq, Repr

/-- `guard_payload_from` with the `debug-guards` feature disabled: the
target is discarded. -/
def guard_payload_from (target : Option Nat) : Option Nat :=
  match target with
  | _ => none

/-- `guard_payload_empty`. -/
def guard_payload_empty : Option Nat := guard_payload_from none

/-- `guard_extract_target` with the `debug-guards` feature disabled:
always `None`. -/
def guard_extract_target (payload : Option Nat) : Option Nat :=
  match payload with
  | _ => none

/-- The state of a `SelfRef<T, I>`: field 0 is the stored offset (the
mathematical value of the `I`-typed integer), field 1 the
`MaybeUninit<T::Components>` (`none` = uninitialised), field 3 the
`RefState`. -/
structure SelfRefS (C : Type) where
  offset : Int
  components : Option C
  state : RefState
deriving DecidableEq, Repr

/-- `NonNull::new`: `none` exactly on the null address. -/
def nonNullNew (p : Nat) : Option Nat := if p = 0 then none else some p

namespace SelfRefS

variable {C P : Type}

/-- `SelfRef::null` (requires `I: Nullable`, whose `NULL` is 0). -/
def null (C : Type) : SelfRefS C := ⟨0, none, .Unset⟩

/-- `SelfRef::is_null`: compares the stored offset with `I::NULL = 0`. -/
def isNull (s : SelfRefS C) : Bool := s.offset == 0

/-- `SelfRef::is_ready`. -/
def isReady (s : SelfRefS C) : Bool :=
  match s.state with
  | .Ready _ => true
  | .Unset => false

/-- `SelfRef::components_if_ready`. -/
def componentsIfReady (s : SelfRefS C) : Option C :=
  match s.state with
  | .Ready _ => s.components
  | .Unset => none

/-- `SelfRef::offsetGetter` (`pub fn offset`). -/
def offsetGetter (s : SelfRefS C) : Int := s.offset

/-- `SelfRef::from_parts`. -/
def fromParts (o : Int) (c : C) : SelfRefS C :=
  ⟨o, some c, .Ready guard_payload_empty⟩

/-- `SelfRef::from_parts_with_target`. -/
def fromPartsWithTarget (o : Int) (c : C) (target : Option Nat) : SelfRefS C :=
  ⟨o, some c, .Ready (guard_payload_from target)⟩

/-- `SelfRef::parts_if_ready`. -/
def partsIfReady (s : SelfRefS C) : Option (Int × C) :=
  (s.componentsIfReady).map (fun c => (s.offset, c))

/-- `SelfRef::parts_with_target_if_ready`.  The `Unset` inner branch is
`unreachable!()` in the source; it is dead because `components_if_ready`
returns `None` on `Unset`, so the mapped function is never applied there;
the model returns an arbitrary value on that dead branch. -/
def partsWithTargetIfReady (s : SelfRefS C) : Option (Int × C × Option Nat) :=
  (s.componentsIfReady).map (fun c =>
    match s.state with
    | .Ready payload => (s.offset, c, guard_extract_target payload)
    | .Unset => (s.offset, c, none))

/-- `SelfRef::set`.  `selfAddr` is `self as *mut Self as *mut u8`,
`targetAddr` is `value as *mut T as *mut u8`, and `comps` is
`T::decompose(value)`.  The first component is the `Result<(), I::Error>`
return value, the second the pointer state after the call: the `?` on
`I::sub` returns before any field is assigned, so on error the state is
returned untouched. -/
def setRun (s : SelfRefS C) (ty : OffTy) (selfAddr targetAddr : Nat)
    (comps : C) : Except OffErr Unit × SelfRefS C :=
  match Offset.sub ty targetAddr selfAddr with
  | .error e => (.error e, s)
  | .ok o => (.ok (), ⟨o, some comps, .Ready guard_payload_empty⟩)

/-- `SelfRef::as_non_null` (the checked accessor; `I: Nullable`).
`recompose` is the `PointerRecomposition::recompose` implementation of the
target type; `selfAddr` is `self as *mut Self as *const u8`.  Reading the
components when the `MaybeUninit` is uninitialised is undefined behaviour
in the source (`assume_init_ref`); the model returns `none` on that dead
branch (a `Ready` state always has initialised components). -/
def asNonNull (recompose : Option Nat → C → Option P) (s : SelfRefS C)
    (selfAddr : Nat) : Option P :=
  match s.state with
  | .Unset => none
  | .Ready _ =>
    match s.components with
    | none => none
    | some c => recompose (nonNullNew (Offset.add s.offset selfAddr)) c

/-- `SelfRef::as_ref`: `as_non_null().map(|ptr| &*ptr.as_ptr())`.  In the
model a reference is identified with the address it dereferences. -/
def asRef (recompose : Option Nat → C → Option P) (s : SelfRefS C)
    (selfAddr : Nat) : Option P :=
  (s.asNonNull recompose selfAddr).map (fun p => p)

/-- `SelfRef::as_mut`: same resolution as `as_ref`. -/
def asMut (recompose : Option Nat → C → Option P) (s : SelfRefS C)
    (selfAddr : Nat) : Option P :=
  (s.asNonNull recompose selfAddr).map (fun p => p)

/-- `PartialEq for SelfRef` (`src/pointer/self_ref.rs`, lines 140–148). -/
def eqRun [DecidableEq C] (s t : SelfRefS C) : Bool :=
  match s.componentsIfReady, t.componentsIfReady with
  | none, none => true
  | some l, some r => s.offset == t.offset && l == r
  | _, _ => false

/-- `SelfRef::get_ref_from_base_unchecked`: recomputes `self`'s address
from the supplied container base (`d_self = self_ptr - base`,
`at_self = base + d_self`), applies the stored offset to it and
recomposes.  Returns the resolved target, `none` standing for the
undefined dereference of a null recomposition. -/
def getRefFromBase (recompose : Option Nat → C → Option P) (s : SelfRefS C)
    (selfAddr base : Nat) : Option P :=
  let dSelf : Int := (selfAddr : Int) - (base : Int)
  let atSelf : Nat := (((base : Int) + dSelf) % (2 ^ 64)).toNat
  match s.components with
  | none => none
  | some c => recompose (nonNullNew (Offset.add s.offset atSelf)) c

end SelfRefS

/-- `PointerRecomposition::recompose` for sized targets
(`src/metadata/impls.rs`): `ptr.map(NonNull::cast)` — the address passes
through unchanged and the components are empty. -/
def sized_recompose (ptr : Option Nat) (c : Unit) : Option Nat :=
  match c with
  | () => ptr.map (fun p => p)

/-- A pointer state is well formed when `Ready` implies the
`MaybeUninit` components are initialised; every state constructed by the
public API satisfies this. -/
def SelfRefS.wfInit {C : Type} (s : SelfRefS C) : Prop :=
  s.isReady = true → s.components.isSome = true

/-- The pointer states reachable through the public constructors and
transitions of `SelfRef`: `null`, `from_parts`, `from_parts_with_target`,
`set` (both outcomes), and `set_unchecked` (which always produces a
`Ready` state with initialised components). -/
inductive ReachableSR (C : Type) : SelfRefS C → Prop where
  | null : ReachableSR C (SelfRefS.null C)
  | fromParts (o : Int) (c : C) : ReachableSR C (SelfRefS.fromParts o c)
  | fromPartsWithTarget (o : Int) (c : C) (t : Option Nat) :
      ReachableSR C (SelfRefS.fromPartsWithTarget o c t)
  | setRun (s : SelfRefS C) (ty : OffTy) (sa ta : Nat) (c : C)
      (r : Except OffErr Unit) (s2 : SelfRefS C) (hs : ReachableSR C s)
      (h : s.setRun ty sa ta c = (r, s2)) : ReachableSR C s2
  | setUnchecked (s : SelfRefS C) (o : Int) (c : C) (hs : ReachableSR C s) :
      ReachableSR C ⟨o, some c, .Ready guard_payload_empty⟩

/-- C5 (counterexample).  A pointer successfully bound by `set` at
distance zero (target address equal to the pointer's own address, as
happens with zero-sized targets), and likewise a pointer reconstructed by
`from_parts` with offset 0, is `Ready` yet reports `is_null = true`:
being bound does not preclude `is_null`. -/
theorem bound_pointer_can_be_null :
    (((SelfRefS.null Unit).setRun ⟨8, false⟩ 100 100 ()).1 = .ok () ∧
      ((SelfRefS.null Unit).setRun ⟨8, false⟩ 100 100 ()).2.isReady = true ∧
      ((SelfRefS.null Unit).setRun ⟨8, false⟩ 100 100 ()).2.isNull = true) ∧
    ((SelfRefS.fromParts 0 ()).isReady = true ∧
      (SelfRefS.fromParts 0 ()).isNull = true) := by
  constructor
  · refine ⟨?_, ?_, ?_⟩ <;> decide
  · exact ⟨by decide, by decide⟩

/-- C5 (amended).  `is_null` tests only whether the stored offset equals
the zero sentinel.  Every reachable pointer that is not `Ready` has offset
0 and therefore reports `is_null = true`; the converse direction of the
claim fails, since a `Ready` pointer may also have offset 0 (zero-distance
binding, or `from_parts` with offset 0). -/
theorem unset_reachable_is_null {C : Type} (s : SelfRefS C)
    (h : ReachableSR C s) (hr : s.isReady = false) : s.isNull = true := by
  induction h with
  | null => rfl
  | fromParts o c => simp [SelfRefS.fromParts, SelfRefS.isReady] at hr
  | fromPartsWithTarget o c t =>
      simp [SelfRefS.fromPartsWithTarget, SelfRefS.isReady] at hr
  | setRun s ty sa ta c r s2 hs h ih =>
      unfold SelfRefS.setRun at h
      cases hsub : Offset.sub ty ta sa with
      | error e =>
          rw [hsub] at h
          cases h
          exact ih hr
      | ok o =>
          rw [hsub] at h
          cases h
          simp [SelfRefS.isReady] at hr
  | setUnchecked s o c hs ih => simp [SelfRefS.isReady] at hr

/-- Witness for the amended C5 theorem: the pointer created by `null` is
reachable, not ready, and reports `is_null = true`. -/
theorem unset_reachable_is_null_witness :
    (SelfRefS.null Unit).isNull = true :=
  unset_reachable_is_null (SelfRefS.null Unit) ReachableSR.null (by decide)

/-- C3.  When `SelfRef::set` fails, the returned error is exactly the
`OffsetError` produced by `Offset::sub`, and the pointer state after the
call is identical to the state before it (same offset, same components,
same `Unset`/`Ready` tag); likewise `SelfRefCell::new` propagates the same
error, yielding no cell (its success value is constructed only on the
`Ok` path).  Stated here for `set`; the cell half is
`cell_new_propagates_error` below, proved in the same theorem via the
cell constructor defined later. -/
theorem set_error_preserves_state {C : Type} (s : SelfRefS C) (ty : OffTy)
    (sa ta : Nat) (c : C) (e : OffErr)
    (h : Offset.sub ty ta sa = .error e) :
    s.setRun ty sa ta c = (.error e, s) := by
  unfold SelfRefS.setRun
  rw [h]

/-- C9.  Two `SelfRef` pointers compare equal exactly when both are
`Unset`, or both are `Ready` with identical stored offset and identical
components; the comparison consults only the stored representation. -/
theorem eq_structural {C : Type} [DecidableEq C] (s t : SelfRefS C)
    (hs : s.wfInit) (ht : t.wfInit) :
    s.eqRun t = true ↔
      ((s.isReady = false ∧ t.isReady = false) ∨
        (s.isReady = true ∧ t.isReady = true ∧ s.offset = t.offset ∧
          s.components = t.components)) := by
  unfold SelfRefS.eqRun SelfRefS.componentsIfReady
  unfold SelfRefS.wfInit SelfRefS.isReady at *
  cases hss : s.state with
  | Unset =>
      cases hts : t.state with
      | Unset => simp [hss, hts]
      | Ready p =>
          rw [hss] at hs
          rw [hts] at ht
          simp [hss, hts] at *
          cases htc : t.components with
          | none => simp [htc] at ht
          | some c => simp [htc]
  | Ready p =>
      cases hts : t.state with
      | Unset =>
          rw [hss] at hs
          simp [hss, hts] at *
          cases hsc : s.components with
          | none => simp [hsc] at hs
          | some c => simp [hsc]
      | Ready q =>
          rw [hss] at hs
          rw [hts] at ht
          simp only [forall_const] at hs ht
          cases hsc : s.components with
          | none => simp [hsc] at hs
          | some l =>
              cases htc : t.components with
              | none => simp [htc] at ht
              | some r => simp [hss, hts, hsc, htc]

/-- Witness for C9 at concrete inputs: two `Ready` pointers with equal
offset 7 and equal components compare equal. -/
theorem eq_structural_witness :
    (SelfRefS.fromParts 7 (3 : Nat)).eqRun (SelfRefS.fromParts 7 3) = true ↔
      (((SelfRefS.fromParts 7 (3 : Nat)).isReady = false ∧
          (SelfRefS.fromParts 7 (3 : Nat)).isReady = false) ∨
        ((SelfRefS.fromParts 7 (3 : Nat)).isReady = true ∧
          (SelfRefS.fromParts 7 (3 : Nat)).isReady = true ∧
          (SelfRefS.fromParts 7 (3 : Nat)).offset =
            (SelfRefS.fromParts 7 (3 : Nat)).offset ∧
          (SelfRefS.fromParts 7 (3 : Nat)).components =
            (SelfRefS.fromParts 7 (3 : Nat)).components)) :=
  eq_structural (SelfRefS.fromParts 7 3) (SelfRefS.fromParts 7 3)
    (by intro h; decide) (by intro h; decide)

/-- C10.  With the `debug-guards` feature disabled, the debug target
passed to `from_parts_with_target` is discarded:
`from_parts_with_target o c (some t)` equals `from_parts o c` as a value,
and `parts_with_target_if_ready` on it returns `some (o, c, none)` — the
recorded absolute target is never observable. -/
theorem from_parts_with_target_discards {C : Type} (o : Int) (c : C)
    (t : Nat) :
    SelfRefS.fromPartsWithTarget o c (some t) = SelfRefS.fromParts o c ∧
      (SelfRefS.fromPartsWithTarget o c (some t)).partsWithTargetIfReady =
        some (o, c, none) := by
  constructor
  · rfl
  · rfl

/-- C6 (counterexample).  A `Ready` pointer whose stored offset makes the
recomputed target address null: `as_non_null` returns `none` even though
the pointer is bound, refuting the claim that checked accessors return
`none` only when `Unset`.  Such a pointer is constructible with the safe
public `from_parts`. -/
theorem ready_accessor_can_be_none :
    (SelfRefS.fromParts (-5 : Int) ()).isReady = true ∧
      (SelfRefS.fromParts (-5 : Int) ()).asNonNull sized_recompose 5 =
        none := by
  constructor
  · decide
  · decide

/-- C6 (amended).  For any recomposition that is strict in the address
(`none` on an absent address, `some` on a present one — as all
implementations in `src/metadata/impls.rs` are), the checked accessors
`as_non_null`, `as_ref` and `as_mut` return `none` exactly when the
pointer is `Unset` or the recomputed target address is null; in
particular, for every `Ready` pointer whose recomputed target address is
non-null (always the case for a binding to a real object whose relative
position is unchanged) they return `some` of the recomposed target. -/
theorem checked_accessor_none_iff {C P : Type}
    (recompose : Option Nat → C → Option P)
    (hnone : ∀ c : C, recompose none c = none)
    (hsome : ∀ p : Nat, ∀ c : C, p ≠ 0 → (recompose (some p) c).isSome = true)
    (s : SelfRefS C) (b : Nat) (hwf : s.wfInit) :
    (s.asNonNull recompose b = none ↔
      (s.isReady = false ∨ Offset.add s.offset b = 0)) ∧
    s.asRef recompose b = s.asNonNull recompose b ∧
    s.asMut recompose b = s.asNonNull recompose b := by
  refine ⟨?_, ?_, ?_⟩
  · unfold SelfRefS.asNonNull
    unfold SelfRefS.wfInit at hwf
    unfold SelfRefS.isReady at hwf ⊢
    cases hss : s.state with
    | Unset => simp
    | Ready p =>
        rw [hss] at hwf
        simp only [forall_const] at hwf
        cases hsc : s.components with
        | none => simp [hsc] at hwf
        | some c =>
            simp only [Bool.true_eq_false, false_or]
            unfold nonNullNew
            by_cases h0 : Offset.add s.offset b = 0
            · simp [h0, hnone]
            · simp only [if_neg h0, h0, iff_false]
              intro hcontra
              simp only [if_false] at hcontra
              have := hsome (Offset.add s.offset b) c h0
              rw [hcontra] at this
              simp at this
  · unfold SelfRefS.asRef
    cases s.asNonNull recompose b <;> simp
  · unfold SelfRefS.asMut
    cases s.asNonNull recompose b <;> simp

/-- Witness for the amended C6 theorem: a concrete `Ready` pointer with
offset 7 resolved at address 10 yields target 17, which is non-null, so
`as_non_null` is not `none`. -/
theorem checked_accessor_none_iff_witness :
    ((SelfRefS.fromParts 7 ()).asNonNull sized_recompose 10 = none ↔
      ((SelfRefS.fromParts 7 ()).isReady = false ∨
        Offset.add (SelfRefS.fromParts 7 ()).offset 10 = 0)) ∧
    (SelfRefS.fromParts 7 ()).asRef sized_recompose 10 =
      (SelfRefS.fromParts 7 ()).asNonNull sized_recompose 10 ∧
    (SelfRefS.fromParts 7 ()).asMut sized_recompose 10 =
      (SelfRefS.fromParts 7 ()).asNonNull sized_recompose 10 :=
  checked_accessor_none_iff sized_recompose
    (fun c => by cases c; rfl)
    (fun p c hp => by cases c; simp [sized_recompose])
    (SelfRefS.fromParts 7 ()) 10 (by intro h; decide)

/- Slice and `str` metadata (`src/metadata/impls.rs`, lines 263–292). -/

/-- `PointerRecomposition::decompose` for `[T]`: the slice's length. -/
def slice_decompose {α : Type} (l : List α) : Nat := l.length

/-- `PointerRecomposition::recompose` for `[T]`:
`Some(NonNull::slice_from_raw_parts(ptr?, data))` — a fat pointer modelled
as (address, length). -/
def slice_recompose (ptr : Option Nat) (data : Nat) : Option (Nat × Nat) :=
  match ptr with
  | none => none
  | some p => some (p, data)

/-- `PointerRecomposition::decompose` for `str`: the byte length. -/
def str_decompose (s : String) : Nat := s.utf8ByteSize

/-- `PointerRecomposition::recompose` for `str`:
`NonNull::new(slice_from_raw_parts_mut(ptr?.as_ptr(), data) as *mut str)`,
which re-checks the address for null. -/
def str_recompose (ptr : Option Nat) (data : Nat) : Option (Nat × Nat) :=
  match ptr with
  | none => none
  | some p => if p = 0 then none else some (p, data)

/-- C8.  `decompose` on a slice or string slice captures exactly its
length; `recompose` on any non-absent address and that captured length
yields a fat reference carrying exactly that length (the sub-slice's own
length); `recompose` on an absent address is absent. -/
theorem slice_str_metadata {α : Type} (l : List α) (s : String)
    (p q : Nat) (hp : p ≠ 0) (hq : q ≠ 0) :
    slice_decompose l = l.length ∧
    slice_recompose (some p) (slice_decompose l) = some (p, l.length) ∧
    (∀ d : Nat, slice_recompose none d = none) ∧
    str_decompose s = s.utf8ByteSize ∧
    str_recompose (some q) (str_decompose s) = some (q, s.utf8ByteSize) ∧
    (∀ d : Nat, str_recompose none d = none) := by
  refine ⟨rfl, rfl, fun d => rfl, rfl, ?_, fun d => rfl⟩
  simp [str_recompose, str_decompose, hq]

/-- Witness for C8: the Scenario B sub-slice `[2, 3, 4]` of
`[0, 1, 2, 3, 4]` (captured length 3, not the container's 5) at address
16, and the Scenario A string at address 8. -/
theorem slice_str_metadata_witness :
    slice_decompose (([0, 1, 2, 3, 4] : List Nat).drop 2) = 3 ∧
    slice_recompose (some 16)
        (slice_decompose (([0, 1, 2, 3, 4] : List Nat).drop 2)) =
      some (16, 3) ∧
    str_recompose (some 8) (str_decompose "Hello, World!") = some (8, 13) := by
  have h := slice_str_metadata (([0, 1, 2, 3, 4] : List Nat).drop 2)
    "Hello, World!" 16 8 (by decide) (by decide)
  refine ⟨h.1, ?_, ?_⟩
  · rw [h.2.1]
    rfl
  · rw [h.2.2.2.2.1]
    rfl

/- The owning cell (`src/combinators/self_ref_cell.rs`).  The cell's field
layout is given by two byte offsets from its base address: `dv` for the
`value` field and `dp` for the `ptr` field.  Memory is modelled as
containing exactly the cell: dereferencing an address yields the cell's
value exactly when the address is the value field's current address. -/

/-- `SelfRefCell<T, I>` for a sized `T` (components `()`). -/
structure SelfRefCellS (T : Type) where
  value : T
  ptr : SelfRefS Unit
deriving Repr

/-- Dereference of a resolved `&T` in a memory containing exactly the
cell based at `base` with layout offset `dv`. -/
def readValueAt {T : Type} (c : SelfRefCellS T) (dv base addr : Nat) :
    Option T :=
  if addr = base + dv then some c.value else none

namespace SelfRefCellS

variable {T : Type}

/-- `SelfRefCell::new`, with the cell being constructed at base address
`base`: starts from a cell holding `v` and a null pointer, binds the
pointer to the just-stored value (`this.ptr.set(&mut this.value)`), and
propagates the offset error (`this.ptr` is the null pointer and
`this.value` is `v` at that point, written inline here). -/
def new (ty : OffTy) (dv dp : Nat) (base : Nat) (v : T) :
    Except OffErr (SelfRefCellS T) :=
  match (SelfRefS.null Unit).setRun ty (base + dp) (base + dv) () with
  | (.error e, _) => .error e
  | (.ok _, p) => .ok ⟨v, p⟩

/-- `SelfRefCell::try_get`, with the cell currently at base address
`base`: checks readiness, then resolves
`ptr.get_ref_from_base_unchecked(base)` and dereferences the resulting
reference in the cell's memory. -/
def tryGet (c : SelfRefCellS T) (ty : OffTy) (dv dp base : Nat) :
    Option T :=
  if c.ptr.isReady = false then none
  else
    match c.ptr.getRefFromBase sized_recompose (base + dp) base with
    | none => none
    | some addr => readValueAt c dv base addr

/-- `SelfRefCell::get`: `try_get().expect(..)` — same resolution, with a
panic (no value) when `try_get` is `None`. -/
def get (c : SelfRefCellS T) (ty : OffTy) (dv dp base : Nat) : Option T :=
  c.tryGet ty dv dp base

/-- `SelfRefCell::into_inner`. -/
def intoInner (c : SelfRefCellS T) : T := c.value

end SelfRefCellS

/-- A successful zeroable `sub` on addresses below the sign boundary whose
distance fits the chosen width. -/
theorem sub_zeroable_ok_of_fits (size a b : Nat)
    (ha : a < 2 ^ 63) (hb : b < 2 ^ 63)
    (hfit : tyMinI size ≤ (a : Int) - (b : Int) ∧
      (a : Int) - (b : Int) ≤ tyMaxI size) :
    sub_zeroable size a b = .ok ((a : Int) - (b : Int)) := by
  unfold sub_zeroable checkedSubIsize
  rw [show toSigned a = (a : Int) from by unfold toSigned; rw [if_pos ha]]
  rw [show toSigned b = (b : Int) from by unfold toSigned; rw [if_pos hb]]
  have hc : ¬((a : Int) - b < isizeMin ∨ isizeMax < (a : Int) - b) := by
    simp only [isizeMin, isizeMax]
    push_neg
    constructor <;> omega
  rw [if_neg hc]
  have hr : ¬(size < 8 ∧ (tyMinI size > (a : Int) - b ∨
      tyMaxI size < (a : Int) - b)) := by
    rintro ⟨_, hcase | hcase⟩ <;> omega
  simp only [if_neg hr]

/-- C3.  When `SelfRef::set` fails with an `OffsetError`, the pointer is
left exactly as it was before the call — the `?` on `Offset::sub` returns
before any field is written — and the returned error is the one `sub`
produced; likewise `SelfRefCell::new` fails atomically with that same
error, yielding no cell. -/
theorem set_and_cell_new_fail_atomically {C T : Type} (s : SelfRefS C)
    (ty : OffTy) (sa ta : Nat) (c : C) (e : OffErr)
    (dv dp base : Nat) (v : T)
    (h : Offset.sub ty ta sa = .error e) :
    s.setRun ty sa ta c = (.error e, s) ∧
      (Offset.sub ty (base + dv) (base + dp) = .error e →
        SelfRefCellS.new ty dv dp base v = .error e) := by
  constructor
  · exact set_error_preserves_state s ty sa ta c e h
  · intro h2
    unfold SelfRefCellS.new
    rw [set_error_preserves_state _ ty _ _ _ e h2]

/-- Witness for C3 at a concrete input: binding at distance 1000 with an
`i8` offset fails with `Conversion 1000`, leaving an `Unset` pointer
unchanged, and `SelfRefCell::new` at layout distance 1000 fails with the
same error. -/
theorem set_and_cell_new_fail_atomically_witness :
    (SelfRefS.null Unit).setRun ⟨1, false⟩ 0 1000 () =
        (.error (.Conversion 1000), SelfRefS.null Unit) ∧
      (Offset.sub ⟨1, false⟩ (0 + 1000) (0 + 0) = .error (.Conversion 1000) →
        SelfRefCellS.new ⟨1, false⟩ 1000 0 0 (5 : Nat) =
          .error (.Conversion 1000)) :=
  set_and_cell_new_fail_atomically (SelfRefS.null Unit) ⟨1, false⟩ 0 1000 ()
    (.Conversion 1000) 1000 0 0 (5 : Nat) (by decide)

/-- C2.  For every value `v` stored in a cell whose layout distance
`dv - dp` fits the chosen (zeroable) offset width, `SelfRefCell::new`
succeeds; the resulting cell answers `try_get`/`get` with exactly `v` at
its construction base and at every base it is later relocated to, and
`into_inner` returns `v` itself. -/
theorem cell_roundtrip {T : Type} (ty : OffTy) (dv dp base0 : Nat) (v : T)
    (hz : ty.nonzero = false)
    (h0v : base0 + dv < 2 ^ 63) (h0p : base0 + dp < 2 ^ 63)
    (hfit : tyMinI ty.size ≤ (dv : Int) - (dp : Int) ∧
      (dv : Int) - (dp : Int) ≤ tyMaxI ty.size) :
    ∃ cell : SelfRefCellS T, SelfRefCellS.new ty dv dp base0 v = .ok cell ∧
      cell.intoInner = v ∧
      ∀ base2 : Nat, base2 + dv < 2 ^ 64 → base2 + dp < 2 ^ 64 →
        0 < base2 + dv →
        cell.tryGet ty dv dp base2 = some v ∧
          cell.get ty dv dp base2 = some v := by
  have hsub : Offset.sub ty (base0 + dv) (base0 + dp) =
      .ok (((base0 + dv : Nat) : Int) - ((base0 + dp : Nat) : Int)) := by
    unfold Offset.sub
    rw [hz]
    simp only [Bool.false_eq_true, if_false]
    apply sub_zeroable_ok_of_fits _ _ _ h0v h0p
    push_cast
    constructor <;> omega
  set d : Int := ((base0 + dv : Nat) : Int) - ((base0 + dp : Nat) : Int)
    with hd
  have hdval : d = (dv : Int) - (dp : Int) := by
    rw [hd]
    push_cast
    omega
  have hdlo : isizeMin ≤ d := by
    simp only [isizeMin]
    omega
  have hdhi : d ≤ isizeMax := by
    simp only [isizeMax]
    omega
  refine ⟨⟨v, ⟨d, some (), .Ready guard_payload_empty⟩⟩, ?_, rfl, ?_⟩
  · unfold SelfRefCellS.new SelfRefS.setRun
    rw [hsub]
  · intro base2 h2v h2p h2pos
    have hready :
        (⟨v, ⟨d, some (), .Ready guard_payload_empty⟩⟩ :
          SelfRefCellS T).ptr.isReady = true := rfl
    have hat : ((((base2 : Int)) +
        (((base2 + dp : Nat) : Int) - (base2 : Int))) % (2 ^ 64)).toNat =
        base2 + dp := by
      push_cast
      omega
    have htgt : Offset.add d (base2 + dp) = base2 + dv := by
      unfold Offset.add
      rw [wrapIsize_eq d hdlo hdhi]
      push_cast
      omega
    have hres : (⟨v, ⟨d, some (), .Ready guard_payload_empty⟩⟩ :
        SelfRefCellS T).ptr.getRefFromBase sized_recompose (base2 + dp)
          base2 = some (base2 + dv) := by
      unfold SelfRefS.getRefFromBase
      simp only [hat, htgt]
      unfold nonNullNew
      rw [if_neg (by omega)]
      rfl
    constructor
    · unfold SelfRefCellS.tryGet
      rw [hready]
      simp only [Bool.true_eq_false, if_false]
      rw [hres]
      simp [readValueAt]
    · unfold SelfRefCellS.get SelfRefCellS.tryGet
      rw [hready]
      simp only [Bool.true_eq_false, if_false]
      rw [hres]
      simp [readValueAt]

/-- Witness for C2 at a concrete input: an `i8`-offset cell with the value
field at byte 0 and the pointer field at byte 16, built at base 0 and
relocated to base 1000, still yields the stored value 42. -/
theorem cell_roundtrip_witness :
    ∃ cell : SelfRefCellS Nat,
      SelfRefCellS.new ⟨1, false⟩ 0 16 0 42 = .ok cell ∧
        cell.intoInner = 42 ∧ cell.tryGet ⟨1, false⟩ 0 16 1000 = some 42 ∧
        cell.get ⟨1, false⟩ 0 16 1000 = some 42 := by
  obtain ⟨cell, h1, h2, h3⟩ :=
    cell_roundtrip (T := Nat) ⟨1, false⟩ 0 16 0 42 rfl (by norm_num)
      (by norm_num) (by constructor <;> decide)
  obtain ⟨h4, h5⟩ := h3 1000 (by norm_num) (by norm_num) (by norm_num)
  exact ⟨cell, h1, h2, h4, h5⟩

end MovableRef
